import Mathlib

/-!
Verification development for the rospy topic core
(src/core/rospy/src/rospy/topics.py).

The Python classes are shallowly embedded as Lean structures and pure
state-passing functions.  Mutable object state becomes an explicit state
record; methods become functions from the old state to the new state,
returning in addition the externally observable effects of the call
(which transports had write_data or close invoked on them, which
callbacks were invoked, the return value or the exception raised).
External collaborators (the transport layer, the serializer, the
process-wide is_shutdown flag) are passed in as an environment record,
since they are out of scope for the source file.  Exceptions that a
method can raise are modelled as explicit outcome constructors; a
try/except block that swallows an exception simply has no effect on the
modelled state, mirroring the source.
-/

namespace Topics

/-- Transport connection, an external collaborator of the topic core.
Only the fields the topic code reads are modelled: the stable id, the
endpoint id string, and the subscriber-side latch slot (the last
received message with the latch bit, or none).  Messages are modelled
as natural numbers.  Python compares transport objects by identity; the
model compares them structurally, with the id field playing the role of
the identity. -/
structure Transport where
  id : Nat
  endpoint_id : String
  latch : Option Nat
deriving DecidableEq, Repr

/-- Frozen statistical snapshot of a once-live connection.  Modelled
from the spec: the DeadTransport class itself lives in
rospy.impl.transport, outside the given source; per the spec it
inherits id and endpoint id (the counters are not read by the topic
code and are omitted). -/
structure DeadTransport where
  id : Nat
  endpoint_id : String
deriving DecidableEq, Repr

/-- DeadTransport(c): freeze the identifying fields of a live transport. -/
def DeadTransport.ofTransport (c : Transport) : DeadTransport :=
  { id := c.id, endpoint_id := c.endpoint_id }

/-- State of a _TopicImpl instance: the live connection list, the
closed flag, the dead connection list retained for statistics, and the
monotonically increasing seq counter.  The resolved name, data class
and locks are not modelled: the name is fixed per impl and the locks
only serialize the interleavings, which the sequential model already
fixes. -/
structure TopicImplState where
  connections : List Transport
  closed : Bool
  dead_connections : List DeadTransport
  seq : Nat
deriving DecidableEq, Repr

namespace TopicImpl

/-- _TopicImpl state as fresh from the constructor. -/
def init : TopicImplState :=
  { connections := [], closed := false, dead_connections := [], seq := 0 }

/-- _TopicImpl.has_connections: truthiness test on self.connections. -/
def has_connections (s : TopicImplState) : Bool :=
  !s.connections.isEmpty

/-- _TopicImpl.has_connection(endpoint_id): snapshot scan for a live
connection with the given endpoint id. -/
def has_connection (s : TopicImplState) (eid : String) : Bool :=
  s.connections.any (fun c => c.endpoint_id == eid)

/-- _TopicImpl.get_num_connections. -/
def get_num_connections (s : TopicImplState) : Nat :=
  s.connections.length

/-- _TopicImpl.close: if already closed, return immediately; otherwise
set the closed flag, invoke close() on every live connection (each in a
try/except that swallows the error into a log, so a failing close has
no effect on the state), and clear the live list.  The dead list is
deliberately not cleared.  The second component lists the connections
on which close() was invoked. -/
def close (s : TopicImplState) : TopicImplState × List Transport :=
  if s.closed then (s, [])
  else ({ s with closed := true, connections := [] }, s.connections)

/-- _TopicImpl.remove_connection(c): copy both lists; if c is in the
live copy, remove its first occurrence and append a frozen DeadTransport
snapshot of c to the dead copy; publish both copies.  When c is absent
both published copies have the same elements as before. -/
def remove_connection (s : TopicImplState) (c : Transport) : TopicImplState :=
  let new_connections := s.connections
  let new_dead_connections := s.dead_connections
  if c ∈ new_connections then
    { s with connections := new_connections.erase c,
             dead_connections := new_dead_connections ++ [DeadTransport.ofTransport c] }
  else
    { s with connections := new_connections,
             dead_connections := new_dead_connections }

/-- _TopicImpl.add_connection(c): publish a copy of the live list with c
appended; a cleanup callback invoking remove_connection is registered on
c (the registration itself is external transport state and not part of
the impl state). -/
def add_connection (s : TopicImplState) (c : Transport) : TopicImplState :=
  { s with connections := s.connections ++ [c] }

end TopicImpl

/-- State of a _PublisherImpl instance, extending the base state with
the publisher-only fields.  The shared cStringIO buffer is modelled by
its validity bit (b.tell() raises ValueError exactly when the buffer
has been closed); the bytes written during one publish are produced by
the environment serializer directly, which is faithful because the
buffer is empty at the start of every publish (reset by seek/truncate
at the end of the previous one).  Subscriber listeners are opaque ids;
the publish lock is not modelled (the model is sequential). -/
structure PublisherImplState extends TopicImplState where
  buff_valid : Bool
  subscriber_listeners : List Nat
  headers : List (String × String)
  is_latch : Bool
  latch : Option Nat
  message_data_sent : Nat
deriving DecidableEq, Repr

/-- State of a _SubscriberImpl instance: the base state plus the
copy-on-write callback list.  A callback is an opaque id paired with
its optional opaque argument. -/
structure SubscriberImplState extends TopicImplState where
  callbacks : List (Nat × Option Nat)
deriving DecidableEq, Repr

namespace PublisherImpl

/-- Outcome of one c.write_data(data) call, decided by the external
transport: success, TransportTerminated, or any other exception.  The
source handles the two exception kinds identically (log at debug level,
add c to err_con). -/
inductive WriteOutcome
  | ok
  | transportTerminated
  | otherError
deriving DecidableEq, Repr

/-- External collaborators of publish: the process-wide is_shutdown
predicate (modelled as constant over one call), the serializer
(serialize_message appending (seq, message) to the empty buffer, none
modelling a raised SerializationError), and the per-transport result of
write_data. -/
structure PubEnv where
  is_shutdown : Bool
  serialize : Nat → Nat → Option (List Nat)
  write : Transport → WriteOutcome

/-- Exceptions publish can raise. -/
inductive PubError
  | closedTopic
  | serializationError
  | closedDuringPublish
  | valueError
deriving DecidableEq, Repr

/-- How one publish call ended: a Python return value (none models the
bare return, some false the return False path) or a raised exception. -/
inductive PubOutcome
  | ret (v : Option Bool)
  | raised (e : PubError)
deriving DecidableEq, Repr

/-- Externally observable effects of one publish call: each write_data
invocation with its data, in order, and the err_con connections on
which close() was invoked after the loop. -/
structure PubEffects where
  writes : List (Transport × List Nat)
  closes : List Transport
deriving DecidableEq, Repr

/-- Lines 826 to 827: if self.is_latch, store the message in the latch
slot. -/
def latchUpd (s : PublisherImplState) (message : Nat) : PublisherImplState :=
  if s.is_latch then { s with latch := some message } else s

/-- One iteration of the broadcast loop, folded over the target list.
The accumulator carries the write_data invocations made so far and the
err_con list.  If is_shutdown became true the write is skipped; a write
that raises (either exception kind) appends the connection to err_con
and the loop continues. -/
def writeStep (env : PubEnv) (data : List Nat)
    (acc : List (Transport × List Nat) × List Transport) (c : Transport) :
    List (Transport × List Nat) × List Transport :=
  if env.is_shutdown then acc
  else
    match env.write c with
    | .ok => (acc.1 ++ [(c, data)], acc.2)
    | .transportTerminated => (acc.1 ++ [(c, data)], acc.2 ++ [c])
    | .otherError => (acc.1 ++ [(c, data)], acc.2 ++ [c])

/-- _PublisherImpl.publish(message, connection_override), lines 800 to
894, transcribed branch for branch:
if closed: raise ClosedTopic unless shutting down, in which case return
none; if is_latch, latch the message; if no live connections, return
False; choose the target list, the override alone if given, else the
connection snapshot; b.tell() raises ValueError on an invalid buffer
(re-raised, since closed is false on this path); increment seq and
serialize, a serialization failure propagating with the state changes
made so far; write to every target collecting err_con; add the buffer
length to message_data_sent, reset the buffer; close every err_con
connection (each close swallowing its own errors). -/
def publish (env : PubEnv) (s0 : PublisherImplState) (message : Nat)
    (conn_override : Option Transport) :
    PublisherImplState × PubEffects × PubOutcome :=
  if s0.closed then
    if env.is_shutdown then (s0, ⟨[], []⟩, .ret none)
    else (s0, ⟨[], []⟩, .raised .closedTopic)
  else
    let s1 := latchUpd s0 message
    if !(TopicImpl.has_connections s1.toTopicImplState) then
      (s1, ⟨[], []⟩, .ret (some false))
    else
      let conns := match conn_override with
        | some c => [c]
        | none => s1.connections
      if !s1.buff_valid then
        (s1, ⟨[], []⟩, .raised .valueError)
      else
        let s2 := { s1 with seq := s1.seq + 1 }
        match env.serialize s2.seq message with
        | none => (s2, ⟨[], []⟩, .raised .serializationError)
        | some data =>
          let we := conns.foldl (writeStep env data) ([], [])
          let s3 := { s2 with
            message_data_sent := s2.message_data_sent + data.length }
          (s3, ⟨we.1, we.2⟩, .ret none)

/-- True when write_data on c raises (either exception kind). -/
def writeFails (env : PubEnv) (c : Transport) : Bool :=
  match env.write c with
  | .ok => false
  | .transportTerminated => true
  | .otherError => true

/-- _PublisherImpl.close: the base close (a no-op when already closed),
then unconditionally clear the subscriber listeners, the headers map
and close the buffer.  Second component: connections close was invoked
on. -/
def close (s : PublisherImplState) : PublisherImplState × List Transport :=
  let bc := TopicImpl.close s.toTopicImplState
  ({ s with toTopicImplState := bc.1,
            subscriber_listeners := [], headers := [], buff_valid := false },
   bc.2)

end PublisherImpl

namespace SubscriberImpl

/-- _SubscriberImpl.add_callback(cb, cb_args): publish a copy of the
callback list with (cb, cb_args) appended; then walk the current
connection snapshot and, for each connection whose latch slot is not
none, invoke the new callback on the latched message.  The second
component lists those invocations as (message, callback, args)
triples, in connection order. -/
def add_callback (s : SubscriberImplState) (cb : Nat) (cb_args : Option Nat) :
    SubscriberImplState × List (Nat × Nat × Option Nat) :=
  let s2 := { s with callbacks := s.callbacks ++ [(cb, cb_args)] }
  let invocations := s2.connections.filterMap (fun c =>
    match c.latch with
    | some m => some (m, cb, cb_args)
    | none => none)
  (s2, invocations)

/-- _SubscriberImpl.close: the base close (a no-op when already
closed), then clear the callback list. -/
def close (s : SubscriberImplState) : SubscriberImplState × List Transport :=
  let bc := TopicImpl.close s.toTopicImplState
  ({ s with toTopicImplState := bc.1, callbacks := [] }, bc.2)

end SubscriberImpl

namespace TopicManager

/-- Registration.PUB / Registration.SUB, selecting the map the manager
operation works on. -/
inductive RegType
  | pub
  | sub
deriving DecidableEq, Repr

/-- The assertion failures release_impl can raise: the impl being
absent from the map (first assert) or the decremented ref_count being
negative (second assert). -/
inductive ReleaseError
  | implAbsent
  | negativeRefCount
deriving DecidableEq, Repr

/-- State of the _TopicManager singleton.  The two name-to-impl dicts
are modelled pointwise by the ref_count of the impl stored under each
name (none when the name is absent); the topic-name set is modelled by
its membership function.  The ref_count is an Int, as in the source,
where the asserts guard against it going negative. -/
structure TMState where
  pubs : String → Option Int
  subs : String → Option Int
  topics : String → Bool

/-- Manager state at construction: empty maps, empty topic set. -/
def initTM : TMState :=
  { pubs := fun _ => none, subs := fun _ => none, topics := fun _ => false }

/-- Pointwise update of a name-to-ref_count dict. -/
def mupd (m : String → Option Int) (k : String) (v : Option Int) :
    String → Option Int :=
  fun n => if n = k then v else m n

/-- _TopicManager._recalculate_topics: rebuild the topic set from the
key sets of both maps. -/
def recalculate_topics (pubs subs : String → Option Int) : String → Bool :=
  fun n => (pubs n).isSome || (subs n).isSome

/-- The map for a direction. -/
def dmap (tm : TMState) (rt : RegType) : String → Option Int :=
  match rt with
  | .pub => tm.pubs
  | .sub => tm.subs

/-- _TopicManager.acquire_impl(reg_type, resolved_name, data_class): if
an impl exists under the name, increment its ref_count; otherwise
construct one (ref_count 0), run _add (store it in the map, add the
name to the topic set, notify the registration listener) and then
increment, giving ref_count 1. -/
def acquire_impl (tm : TMState) (rt : RegType) (name : String) : TMState :=
  match rt with
  | .pub =>
    match tm.pubs name with
    | some rc => { tm with pubs := mupd tm.pubs name (some (rc + 1)) }
    | none =>
      { tm with pubs := mupd tm.pubs name (some 1),
                topics := fun n => if n = name then true else tm.topics n }
  | .sub =>
    match tm.subs name with
    | some rc => { tm with subs := mupd tm.subs name (some (rc + 1)) }
    | none =>
      { tm with subs := mupd tm.subs name (some 1),
                topics := fun n => if n = name then true else tm.topics n }

/-- _TopicManager.release_impl(reg_type, resolved_name): assert the
impl exists, decrement its ref_count, assert the result is not
negative; if it reached zero, close the impl and run _remove (delete
the map entry, recalculate the topic set, notify the listener).  The
Bool in the result records whether impl.close() was invoked. -/
def release_impl (tm : TMState) (rt : RegType) (name : String) :
    Except ReleaseError (TMState × Bool) :=
  match rt with
  | .pub =>
    match tm.pubs name with
    | none => .error .implAbsent
    | some rc =>
      if rc - 1 < 0 then .error .negativeRefCount
      else if rc - 1 = 0 then
        let pubs2 := mupd tm.pubs name none
        .ok ({ tm with pubs := pubs2,
                       topics := recalculate_topics pubs2 tm.subs }, true)
      else .ok ({ tm with pubs := mupd tm.pubs name (some (rc - 1)) }, false)
  | .sub =>
    match tm.subs name with
    | none => .error .implAbsent
    | some rc =>
      if rc - 1 < 0 then .error .negativeRefCount
      else if rc - 1 = 0 then
        let subs2 := mupd tm.subs name none
        .ok ({ tm with subs := subs2,
                       topics := recalculate_topics tm.pubs subs2 }, true)
      else .ok ({ tm with subs := mupd tm.subs name (some (rc - 1)) }, false)

/-- _TopicManager.remove_all: close every impl and clear both maps.
The topic set is not touched by the source. -/
def remove_all (tm : TMState) : TMState :=
  { tm with pubs := fun _ => none, subs := fun _ => none }

/-- One manager operation in a user-driven sequence of acquires and
releases on arbitrary (direction, resolved name) pairs. -/
inductive TMOp
  | acquire (rt : RegType) (name : String)
  | release (rt : RegType) (name : String)
deriving DecidableEq, Repr

/-- Run a sequence of manager operations, stopping at the first failed
assertion. -/
def runOps (tm : TMState) : List TMOp → Except ReleaseError TMState
  | [] => .ok tm
  | .acquire rt name :: rest => runOps (acquire_impl tm rt name) rest
  | .release rt name :: rest =>
    match release_impl tm rt name with
    | .error e => .error e
    | .ok (tm2, _) => runOps tm2 rest

/-- Every ref_count stored in a map is at least one. -/
def goodMap (m : String → Option Int) : Prop :=
  ∀ n rc, m n = some rc → 1 ≤ rc

/-- Every impl held in either map has ref_count at least one. -/
def refInv (tm : TMState) : Prop :=
  goodMap tm.pubs ∧ goodMap tm.subs

/-- The topic-name set is exactly the union of the key sets of the two
maps. -/
def topicsInv (tm : TMState) : Prop :=
  ∀ n, tm.topics n = ((tm.pubs n).isSome || (tm.subs n).isSome)

/-- Concrete operation sequence used as witness input: two acquires and
one release of the same publisher name. -/
def wOps : List TMOp :=
  [TMOp.acquire RegType.pub "a", TMOp.acquire RegType.pub "a",
   TMOp.release RegType.pub "a"]

/-- The manager state reached by running wOps from the fresh manager. -/
def wTM : TMState :=
  match runOps initTM wOps with
  | .ok tm => tm
  | .error _ => initTM

/-- Concrete operation sequence used as witness input for the topic-set
invariant: a publisher and a subscriber acquired, the publisher
released. -/
def w4Ops : List TMOp :=
  [TMOp.acquire RegType.pub "a", TMOp.acquire RegType.sub "b",
   TMOp.release RegType.pub "a"]

/-- The manager state reached by running w4Ops from the fresh manager. -/
def w4TM : TMState :=
  match runOps initTM w4Ops with
  | .ok tm => tm
  | .error _ => initTM

/-- A manager holding one publisher, then torn down with remove_all. -/
def cex4TM : TMState :=
  remove_all (acquire_impl initTM RegType.pub "chat")

end TopicManager

/-- Concrete transports used as witness and counterexample inputs. -/
def cA : Transport := { id := 1, endpoint_id := "peerA", latch := none }

def cB : Transport := { id := 2, endpoint_id := "peerB", latch := none }

def cC : Transport := { id := 3, endpoint_id := "peerC", latch := none }

/-- An inbound transport carrying a latched message. -/
def cL : Transport := { id := 4, endpoint_id := "peerL", latch := some 42 }

/-- Publisher impl state fresh from the constructor except for the
given connections, latch flag and latch slot. -/
def mkPubState (conns : List Transport) (lat : Bool) (l : Option Nat) :
    PublisherImplState :=
  { connections := conns, closed := false, dead_connections := [], seq := 0,
    buff_valid := true, subscriber_listeners := [], headers := [],
    is_latch := lat, latch := l, message_data_sent := 0 }

/-- Environment where nothing fails: not shutting down, serialization
encodes (seq, message) as the two-element byte list [seq, message], all
writes succeed. -/
def envAllOk : PublisherImpl.PubEnv :=
  { is_shutdown := false, serialize := fun sq m => some [sq, m],
    write := fun _ => .ok }

/-- Environment where write_data on the transport with id 2 raises
TransportTerminated and every other write succeeds. -/
def envFailB : PublisherImpl.PubEnv :=
  { envAllOk with
    write := fun c => if c.id = 2 then .transportTerminated else .ok }

/-- Environment where serialize_message always raises. -/
def envSerFail : PublisherImpl.PubEnv :=
  { envAllOk with serialize := fun _ _ => none }

/-- Open latched publisher with no connections. -/
def pNoConns : PublisherImplState := mkPubState [] true none

/-- Closed publisher. -/
def pClosed : PublisherImplState :=
  { mkPubState [cA] false none with closed := true }

/-- Open latched publisher with one connection and a previously latched
message. -/
def pLatchOne : PublisherImplState := mkPubState [cA] true (some 1)

/-- Open publisher with three connections. -/
def pThree : PublisherImplState := mkPubState [cA, cB, cC] false none

/-- Open publisher with one connection. -/
def pOne : PublisherImplState := mkPubState [cA] false none

/-- Open base impl with two live connections. -/
def tOpen : TopicImplState :=
  { connections := [cA, cB], closed := false, dead_connections := [], seq := 0 }

/-- Open subscriber impl with one callback and a latched connection. -/
def uOpen : SubscriberImplState :=
  { connections := [cL], closed := false, dead_connections := [], seq := 0,
    callbacks := [(7, none)] }

namespace TopicManager

theorem mupd_same (m : String → Option Int) (k : String) (v : Option Int) :
    mupd m k v k = v := by
  simp [mupd]

theorem mupd_other (m : String → Option Int) (k : String) (v : Option Int)
    (n : String) (h : n ≠ k) : mupd m k v n = m n := by
  simp [mupd, h]

theorem inv_initTM : refInv initTM ∧ topicsInv initTM := by
  refine ⟨⟨?_, ?_⟩, ?_⟩
  · intro n rc h; simp [initTM] at h
  · intro n rc h; simp [initTM] at h
  · intro n; simp [initTM]

theorem inv_acquire (tm : TMState) (rt : RegType) (name : String)
    (h1 : refInv tm) (h2 : topicsInv tm) :
    refInv (acquire_impl tm rt name) ∧ topicsInv (acquire_impl tm rt name) := by
  obtain ⟨hp, hs⟩ := h1
  cases rt with
  | pub =>
    cases hpn : tm.pubs name with
    | some rc =>
      have hrc : 1 ≤ rc := hp name rc hpn
      simp only [acquire_impl, hpn]
      refine ⟨⟨?_, hs⟩, ?_⟩
      · intro n rc' hn
        dsimp only at hn
        by_cases hnn : n = name
        · subst hnn; rw [mupd_same] at hn
          injection hn with hv; omega
        · rw [mupd_other _ _ _ _ hnn] at hn; exact hp n rc' hn
      · intro n
        dsimp only
        by_cases hnn : n = name
        · subst hnn; rw [mupd_same]; rw [h2 n, hpn]; simp
        · rw [mupd_other _ _ _ _ hnn]; exact h2 n
    | none =>
      simp only [acquire_impl, hpn]
      refine ⟨⟨?_, hs⟩, ?_⟩
      · intro n rc' hn
        dsimp only at hn
        by_cases hnn : n = name
        · subst hnn; rw [mupd_same] at hn
          injection hn with hv; omega
        · rw [mupd_other _ _ _ _ hnn] at hn; exact hp n rc' hn
      · intro n
        dsimp only
        by_cases hnn : n = name
        · subst hnn; rw [mupd_same]; simp
        · rw [mupd_other _ _ _ _ hnn]; simp only [if_neg hnn]; exact h2 n
  | sub =>
    cases hsn : tm.subs name with
    | some rc =>
      have hrc : 1 ≤ rc := hs name rc hsn
      simp only [acquire_impl, hsn]
      refine ⟨⟨hp, ?_⟩, ?_⟩
      · intro n rc' hn
        dsimp only at hn
        by_cases hnn : n = name
        · subst hnn; rw [mupd_same] at hn
          injection hn with hv; omega
        · rw [mupd_other _ _ _ _ hnn] at hn; exact hs n rc' hn
      · intro n
        dsimp only
        by_cases hnn : n = name
        · subst hnn; rw [mupd_same]; rw [h2 n, hsn]; simp
        · rw [mupd_other _ _ _ _ hnn]; exact h2 n
    | none =>
      simp only [acquire_impl, hsn]
      refine ⟨⟨hp, ?_⟩, ?_⟩
      · intro n rc' hn
        dsimp only at hn
        by_cases hnn : n = name
        · subst hnn; rw [mupd_same] at hn
          injection hn with hv; omega
        · rw [mupd_other _ _ _ _ hnn] at hn; exact hs n rc' hn
      · intro n
        dsimp only
        by_cases hnn : n = name
        · subst hnn; rw [mupd_same]; simp
        · rw [mupd_other _ _ _ _ hnn]; simp only [if_neg hnn]; exact h2 n

theorem inv_release (tm : TMState) (rt : RegType) (name : String)
    (tm2 : TMState) (b : Bool)
    (h1 : refInv tm) (h2 : topicsInv tm)
    (hrel : release_impl tm rt name = .ok (tm2, b)) :
    refInv tm2 ∧ topicsInv tm2 := by
  obtain ⟨hp, hs⟩ := h1
  cases rt with
  | pub =>
    cases hpn : tm.pubs name with
    | none => simp [release_impl, hpn] at hrel
    | some rc =>
      have hrc : 1 ≤ rc := hp name rc hpn
      simp only [release_impl, hpn] at hrel
      rw [if_neg (by omega)] at hrel
      by_cases hz : rc - 1 = 0
      · rw [if_pos hz] at hrel
        injection hrel with hpair
        injection hpair with htm hb
        subst htm
        refine ⟨⟨?_, hs⟩, ?_⟩
        · intro n rc' hn
          dsimp only at hn
          by_cases hnn : n = name
          · subst hnn; rw [mupd_same] at hn; cases hn
          · rw [mupd_other _ _ _ _ hnn] at hn; exact hp n rc' hn
        · intro n; rfl
      · rw [if_neg hz] at hrel
        injection hrel with hpair
        injection hpair with htm hb
        subst htm
        refine ⟨⟨?_, hs⟩, ?_⟩
        · intro n rc' hn
          dsimp only at hn
          by_cases hnn : n = name
          · subst hnn; rw [mupd_same] at hn
            injection hn with hv; omega
          · rw [mupd_other _ _ _ _ hnn] at hn; exact hp n rc' hn
        · intro n
          dsimp only
          by_cases hnn : n = name
          · subst hnn; rw [mupd_same]; rw [h2 n, hpn]; simp
          · rw [mupd_other _ _ _ _ hnn]; exact h2 n
  | sub =>
    cases hsn : tm.subs name with
    | none => simp [release_impl, hsn] at hrel
    | some rc =>
      have hrc : 1 ≤ rc := hs name rc hsn
      simp only [release_impl, hsn] at hrel
      rw [if_neg (by omega)] at hrel
      by_cases hz : rc - 1 = 0
      · rw [if_pos hz] at hrel
        injection hrel with hpair
        injection hpair with htm hb
        subst htm
        refine ⟨⟨hp, ?_⟩, ?_⟩
        · intro n rc' hn
          dsimp only at hn
          by_cases hnn : n = name
          · subst hnn; rw [mupd_same] at hn; cases hn
          · rw [mupd_other _ _ _ _ hnn] at hn; exact hs n rc' hn
        · intro n; rfl
      · rw [if_neg hz] at hrel
        injection hrel with hpair
        injection hpair with htm hb
        subst htm
        refine ⟨⟨hp, ?_⟩, ?_⟩
        · intro n rc' hn
          dsimp only at hn
          by_cases hnn : n = name
          · subst hnn; rw [mupd_same] at hn
            injection hn with hv; omega
          · rw [mupd_other _ _ _ _ hnn] at hn; exact hs n rc' hn
        · intro n
          dsimp only
          by_cases hnn : n = name
          · subst hnn; rw [mupd_same]; rw [h2 n, hsn]; simp
          · rw [mupd_other _ _ _ _ hnn]; exact h2 n

theorem inv_runOps (ops : List TMOp) :
    ∀ tm : TMState, refInv tm → topicsInv tm →
      ∀ tm2 : TMState, runOps tm ops = .ok tm2 → refInv tm2 ∧ topicsInv tm2 := by
  induction ops with
  | nil =>
    intro tm h1 h2 tm2 h
    simp only [runOps] at h
    injection h with h; subst h; exact ⟨h1, h2⟩
  | cons op rest ih =>
    intro tm h1 h2 tm2 h
    cases op with
    | acquire rt name =>
      simp only [runOps] at h
      have hi := inv_acquire tm rt name h1 h2
      exact ih _ hi.1 hi.2 tm2 h
    | release rt name =>
      simp only [runOps] at h
      cases hrel : release_impl tm rt name with
      | error e => rw [hrel] at h; cases h
      | ok p =>
        rw [hrel] at h
        obtain ⟨tm1, b⟩ := p
        have hi := inv_release tm rt name tm1 b h1 h2 hrel
        exact ih _ hi.1 hi.2 tm2 h

/-- C1: for every sequence of acquire_impl/release_impl calls starting
from the fresh manager, every impl present in a map has ref_count at
least one, so an impl is in the map for its (direction, name) exactly
while its ref_count is positive; release_impl on a name whose impl is
absent (ref_count at zero) fails the first assertion, the negative
ref_count assertion never fires, and a successful release from
ref_count one closes the impl and removes it from the map while a
release from a larger ref_count keeps it with the count decremented by
one. -/
theorem refcount_lifecycle (ops : List TMOp) (tm : TMState)
    (h : runOps initTM ops = .ok tm) :
    refInv tm ∧
    (∀ rt name, dmap tm rt name = none →
      release_impl tm rt name = .error .implAbsent) ∧
    (∀ rt name, release_impl tm rt name ≠ .error .negativeRefCount) ∧
    (∀ rt name tm2 b, release_impl tm rt name = .ok (tm2, b) →
      (dmap tm rt name = some 1 → b = true ∧ dmap tm2 rt name = none) ∧
      (∀ rc, dmap tm rt name = some rc → rc ≠ 1 →
        b = false ∧ dmap tm2 rt name = some (rc - 1))) := by
  have hi := inv_runOps ops initTM inv_initTM.1 inv_initTM.2 tm h
  obtain ⟨⟨hp, hs⟩, ht⟩ := hi
  refine ⟨⟨hp, hs⟩, ?_, ?_, ?_⟩
  · intro rt name hnone
    cases rt with
    | pub => simp only [dmap] at hnone; simp [release_impl, hnone]
    | sub => simp only [dmap] at hnone; simp [release_impl, hnone]
  · intro rt name
    cases rt with
    | pub =>
      cases hpn : tm.pubs name with
      | none => simp [release_impl, hpn]
      | some rc =>
        have hrc := hp name rc hpn
        simp only [release_impl, hpn]
        rw [if_neg (by omega)]
        by_cases hz : rc - 1 = 0
        · rw [if_pos hz]; simp
        · rw [if_neg hz]; simp
    | sub =>
      cases hsn : tm.subs name with
      | none => simp [release_impl, hsn]
      | some rc =>
        have hrc := hs name rc hsn
        simp only [release_impl, hsn]
        rw [if_neg (by omega)]
        by_cases hz : rc - 1 = 0
        · rw [if_pos hz]; simp
        · rw [if_neg hz]; simp
  · intro rt name tm2 b hrel
    cases rt with
    | pub =>
      simp only [dmap]
      cases hpn : tm.pubs name with
      | none => simp [release_impl, hpn] at hrel
      | some rc =>
        have hrc := hp name rc hpn
        simp only [release_impl, hpn] at hrel
        rw [if_neg (by omega)] at hrel
        by_cases hz : rc - 1 = 0
        · rw [if_pos hz] at hrel
          injection hrel with hpair
          injection hpair with htm hb
          subst htm; subst hb
          constructor
          · intro h1
            refine ⟨rfl, ?_⟩
            dsimp only; rw [mupd_same]
          · intro rc' hrc' hne
            injection hrc' with he
            exfalso; omega
        · rw [if_neg hz] at hrel
          injection hrel with hpair
          injection hpair with htm hb
          subst htm; subst hb
          constructor
          · intro h1
            injection h1 with he
            exfalso; omega
          · intro rc' hrc' hne
            injection hrc' with he
            subst he
            refine ⟨rfl, ?_⟩
            dsimp only; rw [mupd_same]
    | sub =>
      simp only [dmap]
      cases hsn : tm.subs name with
      | none => simp [release_impl, hsn] at hrel
      | some rc =>
        have hrc := hs name rc hsn
        simp only [release_impl, hsn] at hrel
        rw [if_neg (by omega)] at hrel
        by_cases hz : rc - 1 = 0
        · rw [if_pos hz] at hrel
          injection hrel with hpair
          injection hpair with htm hb
          subst htm; subst hb
          constructor
          · intro h1
            refine ⟨rfl, ?_⟩
            dsimp only; rw [mupd_same]
          · intro rc' hrc' hne
            injection hrc' with he
            exfalso; omega
        · rw [if_neg hz] at hrel
          injection hrel with hpair
          injection hpair with htm hb
          subst htm; subst hb
          constructor
          · intro h1
            injection h1 with he
            exfalso; omega
          · intro rc' hrc' hne
            injection hrc' with he
            subst he
            refine ⟨rfl, ?_⟩
            dsimp only; rw [mupd_same]

/-- Witness for C1: after acquire, acquire, release on publisher name a
the reachable state satisfies the ref_count invariant, and releasing
the never-acquired name b fails the impl-absent assertion. -/
theorem refcount_lifecycle_witness :
    refInv wTM ∧ release_impl wTM RegType.pub "b" = .error .implAbsent := by
  have h := refcount_lifecycle wOps wTM rfl
  exact ⟨h.1, h.2.1 RegType.pub "b" rfl⟩

/-- C4 amended: after every completed acquire_impl or release_impl the
topic-name set equals the union of the key sets of the publisher and
subscriber maps; remove_all clears both maps but does not touch the
topic-name set, which keeps its previous contents. -/
theorem topics_union_after_ops (ops : List TMOp) (tm : TMState)
    (h : runOps initTM ops = .ok tm) :
    topicsInv tm ∧
    (∀ n, (remove_all tm).pubs n = none ∧ (remove_all tm).subs n = none ∧
      (remove_all tm).topics n = tm.topics n) := by
  have hi := inv_runOps ops initTM inv_initTM.1 inv_initTM.2 tm h
  exact ⟨hi.2, fun n => ⟨rfl, rfl, rfl⟩⟩

/-- Witness for C4: after acquiring publisher a, subscriber b and
releasing publisher a, the topic set equals the union of the map key
sets, and remove_all empties the maps. -/
theorem topics_union_after_ops_witness :
    topicsInv w4TM ∧ (remove_all w4TM).pubs "b" = none := by
  have h := topics_union_after_ops w4Ops w4TM rfl
  exact ⟨h.1, (h.2 "b").1⟩

/-- C4 counterexample: acquire a publisher on chat, then remove_all.
Both maps are empty afterwards, yet the topic-name set still contains
chat, so it does not equal the union of the key sets and is not
empty. -/
theorem remove_all_stale_topics_cex :
    cex4TM.pubs "chat" = none ∧ cex4TM.subs "chat" = none ∧
    cex4TM.topics "chat" = true := by
  exact ⟨rfl, rfl, rfl⟩

end TopicManager

namespace PublisherImpl

theorem latchUpd_connections (s : PublisherImplState) (m : Nat) :
    (latchUpd s m).connections = s.connections := by
  unfold latchUpd; split <;> rfl

theorem latchUpd_seq (s : PublisherImplState) (m : Nat) :
    (latchUpd s m).seq = s.seq := by
  unfold latchUpd; split <;> rfl

theorem latchUpd_buff_valid (s : PublisherImplState) (m : Nat) :
    (latchUpd s m).buff_valid = s.buff_valid := by
  unfold latchUpd; split <;> rfl

theorem latchUpd_message_data_sent (s : PublisherImplState) (m : Nat) :
    (latchUpd s m).message_data_sent = s.message_data_sent := by
  unfold latchUpd; split <;> rfl

theorem latchUpd_latch (s : PublisherImplState) (m : Nat) :
    (latchUpd s m).latch = (if s.is_latch then some m else s.latch) := by
  unfold latchUpd; split <;> rfl

theorem foldl_writeStep (env : PubEnv) (data : List Nat)
    (h : env.is_shutdown = false) (conns : List Transport) :
    ∀ w e, conns.foldl (writeStep env data) (w, e) =
      (w ++ conns.map (fun c => (c, data)),
       e ++ conns.filter (fun c => writeFails env c)) := by
  induction conns with
  | nil => intro w e; simp
  | cons c rest ih =>
    intro w e
    rw [List.foldl_cons]
    have hstep : writeStep env data (w, e) c =
        (w ++ [(c, data)], e ++ (if writeFails env c then [c] else [])) := by
      unfold writeStep writeFails
      rw [if_neg (by simp [h])]
      cases env.write c <;> simp
    rw [hstep, ih]
    cases hw : writeFails env c <;>
      simp [List.filter_cons, hw, List.append_assoc]

theorem publish_empty_go (env : PubEnv) (s : PublisherImplState)
    (message : Nat) (ov : Option Transport)
    (hc : s.closed = false) (hn : s.connections.isEmpty = true) :
    publish env s message ov =
      (latchUpd s message, ⟨[], []⟩, .ret (some false)) := by
  unfold publish
  rw [if_neg (by simp [hc])]
  simp [TopicImpl.has_connections, latchUpd_connections, hn]

theorem publish_open_go_none (env : PubEnv) (s : PublisherImplState)
    (message : Nat) (data : List Nat)
    (hshut : env.is_shutdown = false) (hc : s.closed = false)
    (hne : s.connections.isEmpty = false) (hb : s.buff_valid = true)
    (hser : env.serialize (s.seq + 1) message = some data) :
    publish env s message none =
      ({ latchUpd s message with
           seq := s.seq + 1,
           message_data_sent := s.message_data_sent + data.length },
       ⟨s.connections.map (fun c => (c, data)),
        s.connections.filter (fun c => writeFails env c)⟩,
       .ret none) := by
  obtain ⟨⟨conns0, closed0, dead0, seq0⟩, bv, sl, hd, il, lt, mds⟩ := s
  dsimp only at hc hne hb hser ⊢
  subst hc; subst hb
  cases conns0 with
  | nil => simp at hne
  | cons c0 rest =>
    cases il <;>
      simp [publish, latchUpd, TopicImpl.has_connections, hser,
        foldl_writeStep env data hshut]

theorem publish_open_go_some (env : PubEnv) (s : PublisherImplState)
    (message : Nat) (c : Transport) (data : List Nat)
    (hshut : env.is_shutdown = false) (hc : s.closed = false)
    (hne : s.connections.isEmpty = false) (hb : s.buff_valid = true)
    (hser : env.serialize (s.seq + 1) message = some data) :
    publish env s message (some c) =
      ({ latchUpd s message with
           seq := s.seq + 1,
           message_data_sent := s.message_data_sent + data.length },
       ⟨[(c, data)], (if writeFails env c then [c] else [])⟩,
       .ret none) := by
  obtain ⟨⟨conns0, closed0, dead0, seq0⟩, bv, sl, hd, il, lt, mds⟩ := s
  dsimp only at hc hne hb hser ⊢
  subst hc; subst hb
  cases conns0 with
  | nil => simp at hne
  | cons c0 rest =>
    cases il <;> cases hw : writeFails env c <;>
      simp [publish, latchUpd, TopicImpl.has_connections, hser,
        foldl_writeStep env data hshut, hw]

/-- C5: publish on a closed publisher impl returns silently when the
process is shutting down and raises the ClosedTopic ROSException
(publish() to a closed topic) otherwise; in both cases the impl state
is returned unchanged, so nothing is serialized (seq, latch, buffer and
the stats counter keep their values) and no write_data or close is
invoked. -/
theorem publish_closed_behavior (env : PubEnv) (s : PublisherImplState)
    (message : Nat) (ov : Option Transport) (h : s.closed = true) :
    publish env s message ov =
      (s, ⟨[], []⟩,
       if env.is_shutdown then .ret none else .raised .closedTopic) := by
  unfold publish
  rw [if_pos h]
  cases env.is_shutdown <;> simp

/-- Witness for C5 at a concrete closed publisher with the process not
shutting down: publish raises ClosedTopic and has no effects. -/
theorem publish_closed_behavior_witness :
    publish envAllOk pClosed 5 none =
      (pClosed, ⟨[], []⟩, .raised .closedTopic) := by
  have h := publish_closed_behavior envAllOk pClosed 5 none rfl
  simpa [envAllOk] using h

/-- C7: publish on an open impl with an empty live connection list and
no override returns False and does not raise; with latching enabled the
message is stored in the latch slot before returning, and seq, the
buffer and the data-sent counter are unchanged. -/
theorem publish_no_connections_returns_false (env : PubEnv)
    (s : PublisherImplState) (message : Nat)
    (hc : s.closed = false) (hn : s.connections = []) :
    publish env s message none =
      (latchUpd s message, ⟨[], []⟩, .ret (some false)) ∧
    (latchUpd s message).latch =
      (if s.is_latch then some message else s.latch) ∧
    (latchUpd s message).seq = s.seq ∧
    (latchUpd s message).buff_valid = s.buff_valid ∧
    (latchUpd s message).message_data_sent = s.message_data_sent := by
  refine ⟨?_, latchUpd_latch s message, latchUpd_seq s message,
    latchUpd_buff_valid s message, latchUpd_message_data_sent s message⟩
  exact publish_empty_go env s message none hc (by simp [hn])

/-- Witness for C7 at a concrete open latched publisher with no
connections: publish returns False and the latch now holds the
message. -/
theorem publish_no_connections_returns_false_witness :
    publish envAllOk pNoConns 5 none =
      (latchUpd pNoConns 5, ⟨[], []⟩, .ret (some false)) ∧
    (latchUpd pNoConns 5).latch = some 5 := by
  have h := publish_no_connections_returns_false envAllOk pNoConns 5 rfl rfl
  refine ⟨h.1, ?_⟩
  rw [h.2.1]
  rfl

/-- C2 counterexample: on an open latched publisher with an empty live
connection list, publish with a connection override c returns False and
invokes write_data on nothing at all, in particular not on the
override: the early return-False path also applies when an override is
provided. -/
theorem publish_override_empty_cex :
    (publish envAllOk pNoConns 5 (some cC)).2.1.writes = [] ∧
    (publish envAllOk pNoConns 5 (some cC)).2.2 = .ret (some false) :=
  ⟨rfl, rfl⟩

/-- C2 amended: the early return-False path applies exactly when the
live connection list is empty, whether or not an override is provided;
when the live list is nonempty and an override c is provided, the
target set of the broadcast is exactly [c]: the serialized bytes are
written to c alone and only c can be evicted. -/
theorem publish_override_targets (env : PubEnv) (s : PublisherImplState)
    (message : Nat) (c : Transport) (data : List Nat)
    (hshut : env.is_shutdown = false) (hc : s.closed = false)
    (hb : s.buff_valid = true)
    (hser : env.serialize (s.seq + 1) message = some data) :
    (s.connections.isEmpty = false →
      (publish env s message (some c)).2.1.writes = [(c, data)] ∧
      (publish env s message (some c)).2.1.closes =
        (if writeFails env c then [c] else []) ∧
      (publish env s message (some c)).2.2 = .ret none) ∧
    (s.connections.isEmpty = true →
      publish env s message (some c) =
        (latchUpd s message, ⟨[], []⟩, .ret (some false))) := by
  constructor
  · intro hne
    rw [publish_open_go_some env s message c data hshut hc hne hb hser]
    exact ⟨rfl, rfl, rfl⟩
  · intro hn
    exact publish_empty_go env s message (some c) hc hn

/-- Witness for C2 amended at a publisher with one live connection and
an override: the serialized bytes go to the override alone and publish
returns normally. -/
theorem publish_override_targets_witness :
    (publish envAllOk pOne 5 (some cC)).2.1.writes = [(cC, [1, 5])] ∧
    (publish envAllOk pOne 5 (some cC)).2.2 = .ret none := by
  have h := publish_override_targets envAllOk pOne 5 cC [1, 5] rfl rfl rfl rfl
  exact ⟨(h.1 rfl).1, (h.1 rfl).2.2⟩

/-- C3 amended: on an open publisher impl the latch slot after publish
holds the message passed to that call whenever latching is enabled, and
is untouched otherwise, regardless of how the call ends: the latch is
written before serialization is attempted, so a message whose
serialization raises still enters the latch. -/
theorem latch_holds_last_published (env : PubEnv) (s : PublisherImplState)
    (message : Nat) (ov : Option Transport) (hc : s.closed = false) :
    (publish env s message ov).1.latch =
      (if s.is_latch then some message else s.latch) := by
  rw [← latchUpd_latch s message]
  unfold publish
  rw [if_neg (by simp [hc])]
  dsimp only
  repeat' split
  all_goals rfl

/-- Witness for C3 amended at a successful latched publish: the latch
holds the newly published message. -/
theorem latch_holds_last_published_witness :
    (publish envAllOk pLatchOne 2 none).1.latch = some 2 := by
  have h := latch_holds_last_published envAllOk pLatchOne 2 none rfl
  rw [h]
  rfl

/-- C3 counterexample: a latched publisher whose latch holds message 1
publishes message 2 while the serializer raises; publish raises the
serialization error, yet the latch now holds message 2, the very
message whose serialization failed. -/
theorem latch_serialize_failure_cex :
    (publish envSerFail pLatchOne 2 none).1.latch = some 2 ∧
    (publish envSerFail pLatchOne 2 none).2.2 =
      .raised .serializationError :=
  ⟨rfl, rfl⟩

/-- C6: broadcast over the live connections with the process not
shutting down: write_data is invoked with the serialized bytes on every
target, including the ones whose write raises (a raising write does not
abort the loop, so every target not in the failing set still has
write_data invoked with the bytes), publish completes with no exception
propagating, message_data_sent grows by the buffer length, and close()
is invoked on exactly the connections whose write_data raised, which
triggers their removal through the cleanup callback registered at
add_connection. -/
theorem publish_broadcast_eviction (env : PubEnv) (s : PublisherImplState)
    (message : Nat) (data : List Nat)
    (hshut : env.is_shutdown = false) (hc : s.closed = false)
    (hne : s.connections.isEmpty = false) (hb : s.buff_valid = true)
    (hser : env.serialize (s.seq + 1) message = some data) :
    (publish env s message none).2.2 = .ret none ∧
    (publish env s message none).2.1.writes =
      s.connections.map (fun c => (c, data)) ∧
    (publish env s message none).2.1.closes =
      s.connections.filter (fun c => writeFails env c) ∧
    (publish env s message none).1.message_data_sent =
      s.message_data_sent + data.length := by
  rw [publish_open_go_none env s message data hshut hc hne hb hser]
  exact ⟨rfl, rfl, rfl, rfl⟩

/-- Witness for C6: three connections where the write to the second
raises TransportTerminated; the first and third still receive the
bytes, the failing one alone is closed, and publish returns
normally. -/
theorem publish_broadcast_eviction_witness :
    (publish envFailB pThree 7 none).2.2 = .ret none ∧
    (publish envFailB pThree 7 none).2.1.writes =
      [(cA, [1, 7]), (cB, [1, 7]), (cC, [1, 7])] ∧
    (publish envFailB pThree 7 none).2.1.closes = [cB] := by
  have h := publish_broadcast_eviction envFailB pThree 7 [1, 7] rfl rfl rfl rfl rfl
  refine ⟨h.1, ?_, ?_⟩
  · rw [h.2.1]; rfl
  · rw [h.2.2.1]; rfl

end PublisherImpl

namespace SubscriberImpl

/-- C8: add_callback appends the new (cb, args) pair to the published
callback list, leaves the connection snapshot unchanged, and the
latched-message invocations it performs are exactly one invocation of
the new callback per connection whose latch slot is non-empty, with the
latched message of that connection, in snapshot order; every invocation
is of the new callback, so no earlier callback is re-invoked. -/
theorem add_callback_latch_delivery (s : SubscriberImplState) (cb : Nat)
    (args : Option Nat) :
    (add_callback s cb args).1.callbacks = s.callbacks ++ [(cb, args)] ∧
    (add_callback s cb args).1.connections = s.connections ∧
    (add_callback s cb args).2 =
      (s.connections.filterMap (fun c => c.latch)).map
        (fun m => (m, cb, args)) := by
  refine ⟨rfl, rfl, ?_⟩
  unfold add_callback
  dsimp only
  rw [List.map_filterMap]
  apply List.filterMap_congr
  intro c _
  cases c.latch <;> rfl

end SubscriberImpl

/-- C9: close is idempotent at every level of the impl hierarchy: on an
open impl the first close sets the closed flag, invokes close() on
every live connection (in the state-independent way that swallowing
per-connection errors gives), clears the live list and leaves the dead
list unchanged; calling close again on the already-closed result is a
no-op that changes nothing, invokes no connection close and raises
nothing; this holds for the base impl and for the publisher and
subscriber subclasses. -/
theorem close_idempotent (t : TopicImplState) (p : PublisherImplState)
    (u : SubscriberImplState) :
    ((TopicImpl.close t).1.closed = true ∧
     (t.closed = false →
       (TopicImpl.close t).2 = t.connections ∧
       (TopicImpl.close t).1.connections = [] ∧
       (TopicImpl.close t).1.dead_connections = t.dead_connections) ∧
     TopicImpl.close (TopicImpl.close t).1 = ((TopicImpl.close t).1, [])) ∧
    ((PublisherImpl.close p).1.closed = true ∧
     (p.closed = false →
       (PublisherImpl.close p).2 = p.connections ∧
       (PublisherImpl.close p).1.connections = [] ∧
       (PublisherImpl.close p).1.dead_connections = p.dead_connections) ∧
     PublisherImpl.close (PublisherImpl.close p).1 =
       ((PublisherImpl.close p).1, [])) ∧
    ((SubscriberImpl.close u).1.closed = true ∧
     (u.closed = false →
       (SubscriberImpl.close u).2 = u.connections ∧
       (SubscriberImpl.close u).1.connections = [] ∧
       (SubscriberImpl.close u).1.dead_connections = u.dead_connections) ∧
     SubscriberImpl.close (SubscriberImpl.close u).1 =
       ((SubscriberImpl.close u).1, [])) := by
  obtain ⟨tc, tcl, td, ts⟩ := t
  obtain ⟨⟨pc, pcl, pd, ps⟩, bv, sl, hd, il, lt, mds⟩ := p
  obtain ⟨⟨uc, ucl, ud, us⟩, cbs⟩ := u
  cases tcl <;> cases pcl <;> cases ucl <;>
    simp [TopicImpl.close, PublisherImpl.close, SubscriberImpl.close]

/-- Witness for C9 at concrete open impls of all three kinds: the first
close reports the closed connections and the second close is the
identity with no connection closes. -/
theorem close_idempotent_witness :
    (TopicImpl.close tOpen).2 = tOpen.connections ∧
    TopicImpl.close (TopicImpl.close tOpen).1 =
      ((TopicImpl.close tOpen).1, []) ∧
    (PublisherImpl.close pThree).1.connections = [] ∧
    (SubscriberImpl.close uOpen).1.dead_connections =
      uOpen.dead_connections := by
  have h := close_idempotent tOpen pThree uOpen
  exact ⟨(h.1.2.1 rfl).1, h.1.2.2, (h.2.1.2.1 rfl).2.1,
    (h.2.2.2.1 rfl).2.2⟩

namespace TopicImpl

/-- C10: remove_connection with an absent connection returns the state
with both lists unchanged (the published copies have equal elements)
and raises nothing; with a present connection it removes exactly the
first occurrence of c from the live list (the count of c drops by one,
the length drops by one, the count of every other connection is
unchanged) and appends exactly one frozen DeadTransport snapshot of c
to the dead list; the closed flag is untouched. -/
theorem remove_connection_spec (s : TopicImplState) (c : Transport) :
    (c ∉ s.connections → remove_connection s c = s) ∧
    (c ∈ s.connections →
      (remove_connection s c).connections = s.connections.erase c ∧
      (remove_connection s c).connections.length + 1 =
        s.connections.length ∧
      (remove_connection s c).connections.count c + 1 =
        s.connections.count c ∧
      (∀ d : Transport, d ≠ c →
        (remove_connection s c).connections.count d =
          s.connections.count d) ∧
      (remove_connection s c).dead_connections =
        s.dead_connections ++ [DeadTransport.ofTransport c] ∧
      (remove_connection s c).closed = s.closed) := by
  constructor
  · intro h
    unfold remove_connection
    rw [if_neg h]
  · intro h
    unfold remove_connection
    rw [if_pos h]
    dsimp only
    refine ⟨rfl, ?_, ?_, ?_, rfl, rfl⟩
    · rw [List.length_erase_of_mem h]
      have hpos : 0 < s.connections.length :=
        List.length_pos.mpr (by intro hnil; rw [hnil] at h; simp at h)
      omega
    · rw [List.count_erase_self]
      have hpos : 0 < s.connections.count c := List.count_pos_iff.mpr h
      omega
    · intro d hd
      exact List.count_erase_of_ne hd s.connections

/-- Witness for C10: removing the absent cC from a two-connection impl
changes nothing; removing the present cA leaves cB live and snapshots
cA into the dead list. -/
theorem remove_connection_spec_witness :
    remove_connection tOpen cC = tOpen ∧
    (remove_connection tOpen cA).connections = [cB] ∧
    (remove_connection tOpen cA).dead_connections =
      [DeadTransport.ofTransport cA] := by
  have h1 := remove_connection_spec tOpen cC
  have h2 := remove_connection_spec tOpen cA
  refine ⟨h1.1 (by decide), ?_, ?_⟩
  · rw [(h2.2 (by decide)).1]; rfl
  · rw [(h2.2 (by decide)).2.2.2.2.1]; rfl

end TopicImpl

end Topics
